import Mathlib

/-!
Verification of the Tolqyn / Synesthesia brain-engine core
(`brain_engine/audio_processor.py`, `brain_engine/bridge_osc.py`,
`brain_engine/main_agent.py`) against its natural-language specification.

The Python code is shallowly embedded: Python floats become `ℚ` where the
computation is field arithmetic and comparisons (the mapper, frequency bins,
onset logic) and `ℝ` where transcendental functions occur (FFT, Hann window,
RMS square root).  Python dictionaries produced by `extract_features` become
association lists of `String × PyVal`; raised exceptions become `Option`
results (`none` = the call raised).  Two-element JSON arrays such as
`[lo, hi]` ranges are modelled as pairs.
-/

namespace Tolqyn

/-! ## Mapping rules document (`main_agent.py`, `config/mapping_rules.json`)

The nested JSON document is modelled structurally, one structure per nested
dictionary, with exactly the fields the repository's documents carry. -/

structure FreqBandRule where
  hz : ℚ × ℚ
  hue : ℚ × ℚ
  saturation : ℚ
  deriving DecidableEq, Repr

structure FrequencyRanges where
  bass : FreqBandRule
  mid : FreqBandRule
  treble : FreqBandRule
  deriving DecidableEq, Repr

structure ColorMapping where
  frequency_ranges : FrequencyRanges
  deriving DecidableEq, Repr

structure MotionMapping where
  onset_velocity : ℚ
  decay_rate : ℚ
  deriving DecidableEq, Repr

structure ParticleMapping where
  energy_to_count : String
  size_range : ℚ × ℚ
  deriving DecidableEq, Repr

structure RulesInner where
  color_mapping : ColorMapping
  motion_mapping : MotionMapping
  particle_mapping : ParticleMapping
  deriving DecidableEq, Repr

structure LearningParams where
  adaptation_rate : ℚ
  user_feedback_weight : ℚ
  deriving DecidableEq, Repr

structure MappingRules where
  version : String
  last_updated : String
  rules : RulesInner
  learning_params : LearningParams
  deriving DecidableEq, Repr

/-- `SynesthesiaAgent.get_default_rules` (`main_agent.py:242-286`).
`time.strftime` is modelled by the explicit `now` argument. -/
def get_default_rules (now : String) : MappingRules :=
  { version := "1.0"
    last_updated := now
    rules :=
      { color_mapping :=
          { frequency_ranges :=
              { bass := { hz := (20, 250), hue := (0, 30), saturation := 0.8 }
                mid := { hz := (250, 2000), hue := (60, 180), saturation := 0.6 }
                treble := { hz := (2000, 20000), hue := (200, 280), saturation := 0.9 } } }
        motion_mapping := { onset_velocity := 0.75, decay_rate := 0.95 }
        particle_mapping := { energy_to_count := "exponential", size_range := (5, 50) } }
    learning_params := { adaptation_rate := 0.1, user_feedback_weight := 0.3 } }

/-- Result of attempting to read and parse the JSON config file: either a
parsed document, or one of the two failures `load_mapping_rules` catches. -/
inductive ConfigFile where
  | parsed (r : MappingRules)
  | missing
  | malformed
  deriving DecidableEq

/-- `SynesthesiaAgent.load_mapping_rules` (`main_agent.py:81-100`): a missing
file (`FileNotFoundError`) or invalid JSON (`json.JSONDecodeError`) falls back
to `get_default_rules`; a parsed document is returned as-is. -/
def load_mapping_rules (now : String) : ConfigFile → MappingRules
  | .parsed r => r
  | .missing => get_default_rules now
  | .malformed => get_default_rules now

/-! ## `SynesthesiaAgent.update_ai_reasoning` (`main_agent.py:119-162`)

The method mutates the shared rules dictionary in place with two successive
assignment statements.  `self.mapper.rules` aliases the very same dictionary,
so the processing thread observes each write as soon as it happens.  We model
the two writes as two whole-document transformations and expose the sequence
of document states visible to a concurrent reader. -/

/-- First write: `self.mapping_rules["rules"]["particle_mapping"]["size_range"]
= new_size_range` (`main_agent.py:152`). -/
def write_size_range (r : MappingRules) (sz : ℚ × ℚ) : MappingRules :=
  { r with rules :=
    { r.rules with particle_mapping :=
      { r.rules.particle_mapping with size_range := sz } } }

/-- Second write: `...["frequency_ranges"]["bass"]["hue"] = [new_hue_base,
new_hue_base + 30]` (`main_agent.py:155`). -/
def write_bass_hue (r : MappingRules) (hue : ℚ × ℚ) : MappingRules :=
  { r with rules :=
    { r.rules with color_mapping :=
      { frequency_ranges :=
        { r.rules.color_mapping.frequency_ranges with
            bass := { r.rules.color_mapping.frequency_ranges.bass with hue := hue } } } } }

/-- The new size range chosen by `update_ai_reasoning` from the aggregated
RMS (`main_agent.py:139-146`). -/
def ai_new_size_range (avg_rms : ℚ) : ℚ × ℚ :=
  if avg_rms > 0.3 then (20, 100) else (2, 10)

/-- The new bass hue chosen by `update_ai_reasoning`
(`main_agent.py:139-146,155`): base 0 when intense, 200 when calm. -/
def ai_new_bass_hue (avg_rms : ℚ) : ℚ × ℚ :=
  if avg_rms > 0.3 then (0, 0 + 30) else (200, 200 + 30)

/-- Net effect of `update_ai_reasoning` on the rules document once both
writes have landed. -/
def update_ai_reasoning (r : MappingRules) (avg_rms : ℚ) : MappingRules :=
  write_bass_hue (write_size_range r (ai_new_size_range avg_rms)) (ai_new_bass_hue avg_rms)

/-- The successive contents of the shared rules document observable by the
processing thread while `update_ai_reasoning` runs: before any write, after
the first write (`size_range`), and after the second write (`bass.hue`). -/
def update_ai_states (r : MappingRules) (avg_rms : ℚ) : List MappingRules :=
  [r,
   write_size_range r (ai_new_size_range avg_rms),
   update_ai_reasoning r avg_rms]

/-! ## OSC bridge and synesthesia mapper (`bridge_osc.py`)

`OSCBridge.send_*` methods serialize one wire message each; we model a sent
message as a value of `OscMsg` and a send call as returning that value. -/

/-- One outbound OSC message (tagged by address). -/
inductive OscMsg where
  | color (r g b : ℚ)
  | particles (count : ℤ) (size : ℚ)
  | motion (speed angle : ℚ)
  | energy (level : ℚ)
  | spectrum (bass mid treble : ℚ)
  | onset (intensity : ℚ)
  deriving DecidableEq, Repr

/-- Python's `%` on floats (sign follows the divisor; used with positive
divisors 360 and 2 in `hsv_to_rgb` / `map_onset_to_motion`). -/
def pymod (a b : ℚ) : ℚ := a - b * ⌊a / b⌋

/-- `OSCBridge.hsv_to_rgb` (`bridge_osc.py:117-148`). -/
def hsv_to_rgb (h s v : ℚ) : ℚ × ℚ × ℚ :=
  let h := pymod h 360
  let c := v * s
  let x := c * (1 - |pymod (h / 60) 2 - 1|)
  let m := v - c
  let rgb : ℚ × ℚ × ℚ :=
    if h < 60 then (c, x, 0)
    else if h < 120 then (x, c, 0)
    else if h < 180 then (0, c, x)
    else if h < 240 then (0, x, c)
    else if h < 300 then (x, 0, c)
    else (c, 0, x)
  (rgb.1 + m, rgb.2.1 + m, rgb.2.2 + m)

/-- `OSCBridge.send_color`: emits `/visual/color r g b`. -/
def send_color (r g b : ℚ) : OscMsg := .color r g b

/-- `OSCBridge.send_color_hsv` (`bridge_osc.py:47-58`): converts to RGB and
emits exactly one color message. -/
def send_color_hsv (h s v : ℚ) : OscMsg :=
  let rgb := hsv_to_rgb h s v
  send_color rgb.1 rgb.2.1 rgb.2.2

/-- `OSCBridge.send_particles`: emits `/visual/particles count size`. -/
def send_particles (count : ℤ) (size : ℚ) : OscMsg := .particles count size

/-- `OSCBridge.send_motion`: emits `/visual/motion speed angle`. -/
def send_motion (speed angle : ℚ) : OscMsg := .motion speed angle

/-- `OSCBridge.send_energy`: emits `/visual/energy level`. -/
def send_energy (level : ℚ) : OscMsg := .energy level

/-- `OSCBridge.send_onset`: emits `/visual/onset intensity`. -/
def send_onset (intensity : ℚ) : OscMsg := .onset intensity

/-- A value stored in the features dictionary built by
`AudioProcessor.extract_features` (Python floats, a float list, a bool, or an
int), generic in the number representation. -/
inductive PyVal (α : Type) where
  | float (x : α)
  | floatList (xs : List α)
  | bool (b : Bool)
  | int (n : ℤ)
  deriving DecidableEq

/-- `dict.get(key, default)` specialised to float-valued entries. -/
def dict_get_float {α : Type} (d : List (String × PyVal α)) (k : String) (dflt : α) : α :=
  match d.lookup k with
  | some (.float x) => x
  | _ => dflt

/-- `dict.get(key, default)` specialised to bool-valued entries. -/
def dict_get_bool {α : Type} (d : List (String × PyVal α)) (k : String) (dflt : Bool) : Bool :=
  match d.lookup k with
  | some (.bool b) => b
  | _ => dflt

/-- Python `int()` applied to a float: truncation toward zero. -/
def int_py (q : ℚ) : ℤ := if q < 0 then -⌊-q⌋ else ⌊q⌋

/-- `SynesthesiaMapper.map_frequency_to_color` (`bridge_osc.py:201-235`). -/
def map_frequency_to_color (rules : MappingRules) (dominant_freq intensity : ℚ) :
    ℚ × ℚ × ℚ :=
  let color_rules := rules.rules.color_mapping.frequency_ranges
  let band :=
    if dominant_freq < 250 then color_rules.bass
    else if dominant_freq < 2000 then color_rules.mid
    else color_rules.treble
  let hue := (band.hue.1 + band.hue.2) / 2
  let saturation := band.saturation
  let value := min (intensity * 2) 1
  (hue, saturation, value)

/-- `SynesthesiaMapper.map_rms_to_particles` (`bridge_osc.py:237-256`):
`count = int(10 + rms * rms * 100)`, `size = lo + rms * (hi - lo)`. -/
def map_rms_to_particles (rules : MappingRules) (rms : ℚ) : ℤ × ℚ :=
  let size_range := rules.rules.particle_mapping.size_range
  let count := int_py (10 + rms * rms * 100)
  let size := size_range.1 + rms * (size_range.2 - size_range.1)
  (count, size)

/-- `SynesthesiaMapper.map_onset_to_motion` (`bridge_osc.py:258-279`);
`time.time()` is modelled by the explicit `now` argument. -/
def map_onset_to_motion (rules : MappingRules) (onset : Bool) (rms : ℚ) (now : ℚ) :
    ℚ × ℚ :=
  let onset_velocity := rules.rules.motion_mapping.onset_velocity
  if onset then (onset_velocity * (1 + rms), pymod (now * 30) 360)
  else (0.1, 0)

/-- `SynesthesiaMapper.process_audio_features` (`bridge_osc.py:281-305`):
reads the feature dict (with the source's `.get` defaults), maps, and sends
color, particles, motion and energy, plus onset only when `onset` is true.
The returned list is the sequence of emitted OSC messages. -/
def process_audio_features (rules : MappingRules) (now : ℚ)
    (features : List (String × PyVal ℚ)) : List OscMsg :=
  let dominant_freq := dict_get_float features "dominant_freq" 440
  let rms := dict_get_float features "rms" 0
  let onset := dict_get_bool features "onset" false
  let hsv := map_frequency_to_color rules dominant_freq rms
  let cs := map_rms_to_particles rules rms
  let sa := map_onset_to_motion rules onset rms now
  [send_color_hsv hsv.1 hsv.2.1 hsv.2.2,
   send_particles cs.1 cs.2,
   send_motion sa.1 sa.2,
   send_energy rms] ++ (if onset then [send_onset rms] else [])

/-! ## Frame queue (`audio_processor.py:53,65-78,119-136`)

`queue.Queue(maxsize=10)` with `put_nowait` / `get`.  A raised `queue.Full`
or `queue.Empty` is modelled as `none`. -/

/-- `queue.Queue.put_nowait`: appends unless the queue already holds
`maxsize` items, in which case `queue.Full` is raised (`none`). -/
def put_nowait {α : Type} (maxsize : ℕ) (q : List α) (x : α) : Option (List α) :=
  if q.length < maxsize then some (q ++ [x]) else none

/-- `AudioProcessor.audio_callback` (`audio_processor.py:65-78`): tries a
non-blocking put on the capacity-10 queue and silently drops the incoming
frame when full (`except queue.Full: pass`). -/
def audio_callback {α : Type} (q : List α) (x : α) : List α :=
  match put_nowait 10 q x with
  | some q' => q'
  | none => q

/-- `queue.Queue.get` at the consumer side: `none` models the `queue.Empty`
raised when the queue stayed empty for the whole timeout. -/
def queue_get {α : Type} : List α → Option (α × List α)
  | [] => none
  | x :: xs => some (x, xs)

/-! ## Feature extraction (`audio_processor.py`) -/

/-- `numpy.fft.fftfreq(n, 1/sample_rate)` as used in `__init__`
(`audio_processor.py:59`): bin `k` maps to `k * rate / n` for
`k < (n+1)/2` and to `(k - n) * rate / n` for the remaining bins. -/
def np_fftfreq (n : ℕ) (rate : ℚ) : List ℚ :=
  (List.range n).map fun k =>
    (if k < (n + 1) / 2 then (k : ℚ) else (k : ℚ) - n) * rate / n

/-- The binary search performed by `numpy.searchsorted(a, v)` (side `'left'`):
on a sorted array it returns the first index whose element is `≥ v`; on an
unsorted array it returns whatever the textbook binary search yields. -/
def bisectLeft (l : List ℚ) (v : ℚ) (lo hi : ℕ) : ℕ :=
  if _h : lo < hi then
    if l.getD ((lo + hi) / 2) 0 < v then bisectLeft l v ((lo + hi) / 2 + 1) hi
    else bisectLeft l v lo ((lo + hi) / 2)
  else lo
termination_by hi - lo
decreasing_by all_goals omega

/-- `numpy.searchsorted(a, v)` over the whole array. -/
def np_searchsorted (l : List ℚ) (v : ℚ) : ℕ := bisectLeft l v 0 l.length

/-- `numpy.argmax`: index of the first occurrence of the maximum; raises on
an empty array (`none`). -/
def np_argmax {α : Type} [LinearOrder α] : List α → Option ℕ
  | [] => none
  | x :: xs =>
    match np_argmax xs with
    | none => some 0
    | some j => if xs.getD j x ≤ x then some 0 else some (j + 1)

/-- `scipy.signal.windows.hann(M)` (symmetric):
`w[k] = 1/2 - 1/2·cos(2πk/(M-1))`, with the degenerate guard returning all
ones for `M ≤ 1`. -/
noncomputable def hann (M : ℕ) : List ℝ :=
  if M ≤ 1 then List.replicate M 1
  else (List.range M).map fun k : ℕ =>
    1/2 - 1/2 * Real.cos (2 * Real.pi * (k : ℝ) / ((M : ℝ) - 1))

/-- Coefficient `k` of the discrete Fourier transform computed by
`scipy.fft.fft`: `X_k = Σ_j x_j · exp(-2πi·j·k/n)`. -/
noncomputable def np_fft_coeff (x : List ℝ) (k : ℕ) : ℂ :=
  ((List.range x.length).map fun j =>
    ((x.getD j 0 : ℝ) : ℂ) * Complex.exp (-(2 * Real.pi * Complex.I * j * k) / x.length)).sum

/-- `scipy.fft.fft` of a real input, as a list of complex coefficients. -/
noncomputable def np_fft (x : List ℝ) : List ℂ :=
  (List.range x.length).map fun k => np_fft_coeff x k

/-- The fields of `AudioProcessor` fixed at `__init__`
(`audio_processor.py:28-63`); the mutable `previous_rms` is threaded
separately. -/
structure AudioProcessor where
  sample_rate : ℕ
  buffer_size : ℕ
  onset_threshold : ℝ
  freq_bins : List ℚ
  cached_window : List ℝ

/-- `AudioProcessor.__init__`: `onset_threshold = 0.3`,
`freq_bins = fftfreq(buffer_size, 1/sample_rate)`,
`cached_window = hann(buffer_size)`; initial `previous_rms = 0.0`. -/
noncomputable def AudioProcessor.init (sample_rate buffer_size : ℕ) : AudioProcessor :=
  { sample_rate := sample_rate
    buffer_size := buffer_size
    onset_threshold := 0.3
    freq_bins := np_fftfreq buffer_size (sample_rate : ℚ)
    cached_window := hann buffer_size }

/-- The initial onset state set in `__init__`: `self.previous_rms = 0.0`. -/
def init_previous_rms : ℝ := 0

/-- The default processor built everywhere in the repository:
`AudioProcessor(sample_rate=44100, buffer_size=1024)`. -/
noncomputable def defaultProcessor : AudioProcessor := AudioProcessor.init 44100 1024

/-- `AudioProcessor.compute_fft` (`audio_processor.py:176-206`): window
(cached when the frame has the configured length), FFT, magnitudes of the
first half, normalized by the frame length. -/
noncomputable def compute_fft (self : AudioProcessor) (audio_data : List ℝ) : List ℝ :=
  let n := audio_data.length
  let window := if n = self.buffer_size then self.cached_window else hann n
  let windowed := List.zipWith (· * ·) audio_data window
  let fft_result := np_fft windowed
  let magnitude := (fft_result.take (fft_result.length / 2)).map Complex.abs
  magnitude.map (· / (n : ℝ))

/-- `AudioProcessor.find_dominant_freq` (`audio_processor.py:208-225`):
`none` models the two possible exceptions (`np.argmax` of an empty slice,
or indexing `positive_freqs` out of bounds). -/
def find_dominant_freq {α : Type} [LinearOrder α] (self : AudioProcessor)
    (spectrum : List α) : Option ℚ :=
  let positive_freqs := self.freq_bins.take spectrum.length
  let min_idx := np_searchsorted positive_freqs 20
  match np_argmax (spectrum.drop min_idx) with
  | none => none
  | some j => positive_freqs.get? (j + min_idx)

/-- `AudioProcessor.compute_rms` (`audio_processor.py:227-235`):
`sqrt(mean(audio_data**2))`. -/
noncomputable def compute_rms (audio_data : List ℝ) : ℝ :=
  Real.sqrt ((audio_data.map fun x => x ^ 2).sum / (audio_data.length : ℝ))

/-- `AudioProcessor.detect_onset` (`audio_processor.py:237-254`): returns
the onset flag `delta > threshold` together with the unconditionally
updated `previous_rms` state. -/
def detect_onset {α : Type} [LinearOrderedField α]
    (onset_threshold previous_rms current_rms : α) : Bool × α :=
  let delta := current_rms - previous_rms
  (decide (delta > onset_threshold), current_rms)

/-- `AudioProcessor.extract_features` (`audio_processor.py:138-174`): the
returned dictionary with its exact keys, paired with the updated
`previous_rms`.  `time.time()` is the explicit `now` argument; `none` models
an exception escaping (only `find_dominant_freq` can raise, before the onset
state is written). -/
noncomputable def extract_features (self : AudioProcessor) (previous_rms : ℝ)
    (now : ℝ) (audio_data : List ℝ) : Option (List (String × PyVal ℝ) × ℝ) :=
  let spectrum := compute_fft self audio_data
  match find_dominant_freq self spectrum with
  | none => none
  | some dominant_freq =>
    let rms := compute_rms audio_data
    let od := detect_onset self.onset_threshold previous_rms rms
    some ([("timestamp", .float now),
           ("spectrum", .floatList spectrum),
           ("dominant_freq", .float ((dominant_freq : ℚ) : ℝ)),
           ("rms", .float rms),
           ("onset", .bool od.1),
           ("sample_rate", .int (self.sample_rate : ℤ))], od.2)

/-- One iteration of `AudioProcessor._process_loop`
(`audio_processor.py:119-136`): a `queue.Empty` timeout (`none` from
`queue_get`) and an exception inside `extract_features` are both caught and
the loop just continues. -/
noncomputable def process_loop_step (self : AudioProcessor) (previous_rms : ℝ)
    (now : ℝ) (q : List (List ℝ)) : ℝ × List (List ℝ) :=
  match queue_get q with
  | none => (previous_rms, q)
  | some (frame, q') =>
    match extract_features self previous_rms now frame with
    | none => (previous_rms, q')
    | some (_, prev') => (prev', q')

/-- `numpy.where((freqs >= lo) & (freqs < hi))[0]` from
`AudioProcessor.get_frequency_bands`: the indices whose frequency falls in
`[lo, hi)`. -/
def np_where_band (freqs : List ℚ) (lo hi : ℚ) : List ℕ :=
  (List.range freqs.length).filter fun i => lo ≤ freqs.getD i 0 ∧ freqs.getD i 0 < hi

/-- `float(np.mean(spectrum[idx])) if len(idx) > 0 else 0.0` from
`AudioProcessor.get_frequency_bands`. -/
def band_mean {α : Type} [LinearOrderedField α] (spectrum : List α) (idx : List ℕ) : α :=
  if 0 < idx.length then ((idx.map fun i => spectrum.getD i 0).sum) / (idx.length : α)
  else 0

/-- `AudioProcessor.get_frequency_bands` (`audio_processor.py:256-283`): the
returned `{'bass', 'mid', 'treble'}` dictionary as a triple, in that order. -/
def get_frequency_bands {α : Type} [LinearOrderedField α] (self : AudioProcessor)
    (spectrum : List α) : α × α × α :=
  let freqs := self.freq_bins.take spectrum.length
  let bass_idx := np_where_band freqs 20 250
  let mid_idx := np_where_band freqs 250 2000
  let treble_idx := np_where_band freqs 2000 20000
  (band_mean spectrum bass_idx, band_mean spectrum mid_idx, band_mean spectrum treble_idx)

/-- The specification's description of a band energy, written from its own
words: "each band's energy is the arithmetic mean of magnitude values whose
frequency falls in the range; an empty band ... yields energy 0.0".  Bins are
paired with their frequencies and filtered by the half-open range. -/
def band_mean_spec {α : Type} [LinearOrderedField α] (freqs : List ℚ) (mags : List α)
    (lo hi : ℚ) : α :=
  let vals := ((freqs.zip mags).filter fun p => lo ≤ p.1 ∧ p.1 < hi).map Prod.snd
  if vals.isEmpty then 0 else vals.sum / (vals.length : α)

/-- The specification's description of the magnitude sequence, written from
its own words: "Compute the discrete Fourier transform of the windowed frame;
take magnitude of the first half of the output (positive frequencies only);
normalize by dividing by the number of samples." -/
noncomputable def magnitudes_spec (windowed : List ℝ) : List ℝ :=
  ((np_fft windowed).take (windowed.length / 2)).map fun z =>
    Complex.abs z / (windowed.length : ℝ)

/-- Feeding a sequence of frames with the given RMS values through the
stateful `detect_onset`, starting from the given stored `previous_rms`:
the list of onset flags reported, one per call. -/
def run_onsets {α : Type} [LinearOrderedField α] (onset_threshold : α) :
    α → List α → List Bool
  | _, [] => []
  | prev, r :: rs =>
    (detect_onset onset_threshold prev r).1 ::
      run_onsets onset_threshold (detect_onset onset_threshold prev r).2 rs

/-- Message classifiers, one per OSC address. -/
def OscMsg.isColor : OscMsg → Bool
  | .color _ _ _ => true
  | _ => false

def OscMsg.isParticles : OscMsg → Bool
  | .particles _ _ => true
  | _ => false

def OscMsg.isMotion : OscMsg → Bool
  | .motion _ _ => true
  | _ => false

def OscMsg.isEnergy : OscMsg → Bool
  | .energy _ => true
  | _ => false

def OscMsg.isOnset : OscMsg → Bool
  | .onset _ => true
  | _ => false

/-! ## Lemmas: binary search -/

/-- If every element of `l` in `[lo, hi)` is `< v`, the binary search runs to
the right end. -/
theorem bisectLeft_all_lt (l : List ℚ) (v : ℚ) :
    ∀ fuel lo hi, hi - lo ≤ fuel → lo ≤ hi →
      (∀ i, lo ≤ i → i < hi → l.getD i 0 < v) →
      bisectLeft l v lo hi = hi := by
  intro fuel
  induction fuel with
  | zero =>
    intro lo hi h1 h2 _
    have : lo = hi := by omega
    rw [bisectLeft]
    simp [this]
  | succ n ih =>
    intro lo hi h1 h2 h3
    rw [bisectLeft]
    by_cases hlt : lo < hi
    · have hmid1 : lo ≤ (lo + hi) / 2 := by omega
      have hmid2 : (lo + hi) / 2 < hi := by omega
      rw [dif_pos hlt, if_pos (h3 _ hmid1 hmid2)]
      exact ih ((lo + hi) / 2 + 1) hi (by omega) (by omega)
        (fun i hi1 hi2 => h3 i (by omega) hi2)
    · rw [dif_neg hlt]; omega

/-- Binary-search invariant on a list that is monotone (in `getD` form): the
result separates the elements `< v` from the rest. -/
theorem bisectLeft_invariant (l : List ℚ) (v : ℚ)
    (hmono : ∀ i j, i ≤ j → j < l.length → l.getD i 0 ≤ l.getD j 0) :
    ∀ fuel lo hi, hi - lo ≤ fuel → lo ≤ hi → hi ≤ l.length →
      (∀ i, i < lo → l.getD i 0 < v) →
      (∀ i, hi ≤ i → i < l.length → ¬ l.getD i 0 < v) →
      lo ≤ bisectLeft l v lo hi ∧ bisectLeft l v lo hi ≤ hi ∧
      (∀ i, i < bisectLeft l v lo hi → l.getD i 0 < v) ∧
      (∀ i, bisectLeft l v lo hi ≤ i → i < l.length → ¬ l.getD i 0 < v) := by
  intro fuel
  induction fuel with
  | zero =>
    intro lo hi h1 h2 hlen hlo hhi
    have : lo = hi := by omega
    rw [bisectLeft]
    subst this
    simp only [lt_irrefl, dite_false]
    exact ⟨le_refl _, le_refl _, hlo, hhi⟩
  | succ n ih =>
    intro lo hi h1 h2 hlen hlo hhi
    rw [bisectLeft]
    by_cases hlt : lo < hi
    · rw [dif_pos hlt]
      have hmid1 : lo ≤ (lo + hi) / 2 := by omega
      have hmid2 : (lo + hi) / 2 < hi := by omega
      by_cases hcomp : l.getD ((lo + hi) / 2) 0 < v
      · rw [if_pos hcomp]
        have hres := ih ((lo + hi) / 2 + 1) hi (by omega) (by omega) hlen
          (fun i hilt => by
            rcases Nat.lt_or_ge i lo with h | h
            · exact hlo i h
            · exact lt_of_le_of_lt
                (hmono i ((lo + hi) / 2) (by omega) (by omega)) hcomp)
          hhi
        exact ⟨by omega, by omega, hres.2.2.1, hres.2.2.2⟩
      · rw [if_neg hcomp]
        have hres := ih lo ((lo + hi) / 2) (by omega) (by omega) (by omega) hlo
          (fun i hle hilen hcon =>
            hcomp (lt_of_le_of_lt (hmono ((lo + hi) / 2) i hle hilen) hcon))
        exact ⟨hres.1, by omega, hres.2.2.1, hres.2.2.2⟩
    · rw [dif_neg hlt]
      have : lo = hi := by omega
      subst this
      exact ⟨le_refl _, le_refl _, hlo, hhi⟩

/-- `np.searchsorted` on a monotone array: the result `r` is the first index
whose element is not `< v`. -/
theorem np_searchsorted_sorted (l : List ℚ) (v : ℚ)
    (hmono : ∀ i j, i ≤ j → j < l.length → l.getD i 0 ≤ l.getD j 0) :
    np_searchsorted l v ≤ l.length ∧
    (∀ i, i < np_searchsorted l v → l.getD i 0 < v) ∧
    (∀ i, np_searchsorted l v ≤ i → i < l.length → ¬ l.getD i 0 < v) := by
  have h := bisectLeft_invariant l v hmono l.length 0 l.length (by omega)
    (Nat.zero_le _) (le_refl _) (fun i h => absurd h (Nat.not_lt_zero i))
    (fun i h1 h2 => absurd (lt_of_le_of_lt h1 h2) (by omega))
  exact ⟨h.2.1, h.2.2.1, h.2.2.2⟩

/-! ## Lemmas: argmax -/

/-- `np_argmax` on a cons whose tail is empty-behaved. -/
theorem np_argmax_cons_none {α : Type} [LinearOrder α] {xs : List α} (x : α)
    (h : np_argmax xs = none) : np_argmax (x :: xs) = some 0 := by
  rw [np_argmax, h]

/-- `np_argmax` on a cons, once the recursive result is known. -/
theorem np_argmax_cons_some {α : Type} [LinearOrder α] {xs : List α} {j : ℕ} (x : α)
    (h : np_argmax xs = some j) :
    np_argmax (x :: xs) = if xs.getD j x ≤ x then some 0 else some (j + 1) := by
  rw [np_argmax, h]

/-- `np_argmax` returns `none` only on the empty list. -/
theorem np_argmax_eq_none {α : Type} [LinearOrder α] {l : List α}
    (h : np_argmax l = none) : l = [] := by
  cases l with
  | nil => rfl
  | cons x xs =>
    cases hx : np_argmax xs with
    | none => rw [np_argmax_cons_none x hx] at h; simp at h
    | some j => rw [np_argmax_cons_some x hx] at h; split at h <;> simp at h

/-- On a nonempty list, `np_argmax` yields an in-range index whose element is
a maximum of the list. -/
theorem np_argmax_spec {α : Type} [LinearOrder α] (d : α) :
    ∀ l : List α, l ≠ [] →
      ∃ j, np_argmax l = some j ∧ j < l.length ∧
        ∀ i, i < l.length → l.getD i d ≤ l.getD j d := by
  intro l
  induction l with
  | nil => intro h; exact absurd rfl h
  | cons x xs ih =>
    intro _
    cases hx : np_argmax xs with
    | none =>
      have hnil := np_argmax_eq_none hx
      subst hnil
      refine ⟨0, np_argmax_cons_none x hx, by simp, ?_⟩
      intro i hi
      have : i = 0 := by simpa using hi
      subst this
      simp
    | some j =>
      have hne : xs ≠ [] := by
        intro h
        subst h
        rw [np_argmax] at hx
        exact absurd hx (by simp)
      obtain ⟨j', hj'eq, hj'lt, hj'max⟩ := ih hne
      rw [hx] at hj'eq
      injection hj'eq with hjj
      subst hjj
      have hgetx : xs.getD j x = xs.getD j d := by
        rw [List.getD_eq_getElem _ _ hj'lt, List.getD_eq_getElem _ _ hj'lt]
      by_cases hc : xs.getD j x ≤ x
      · refine ⟨0, by rw [np_argmax_cons_some x hx]; exact if_pos hc, by simp, ?_⟩
        intro i hi
        match i with
        | 0 => simp
        | Nat.succ i' =>
          have hi' : i' < xs.length := by simpa using hi
          have h1 : (x :: xs).getD (i' + 1) d = xs.getD i' d := by simp
          have h2 : (x :: xs).getD 0 d = x := by simp
          rw [h1, h2]
          exact le_trans (hj'max i' hi') (by rw [← hgetx]; exact hc)
      · refine ⟨j + 1, by rw [np_argmax_cons_some x hx]; exact if_neg hc,
          by simpa using Nat.succ_lt_succ hj'lt, ?_⟩
        intro i hi
        have hmax : (x :: xs).getD (j + 1) d = xs.getD j d := by simp
        match i with
        | 0 =>
          rw [hmax]
          simp only [List.getD_cons_zero]
          rw [← hgetx]
          exact le_of_lt (lt_of_not_le hc)
        | Nat.succ i' =>
          have hi' : i' < xs.length := by simpa using hi
          have h1 : (x :: xs).getD (i' + 1) d = xs.getD i' d := by simp
          rw [h1, hmax]
          exact hj'max i' hi'

/-! ## Lemmas: frequency bins of the default processor -/

theorem np_fftfreq_length (n : ℕ) (rate : ℚ) : (np_fftfreq n rate).length = n := by
  simp [np_fftfreq]

theorem np_fftfreq_getD (n : ℕ) (rate : ℚ) {k : ℕ} (h : k < n) :
    (np_fftfreq n rate).getD k 0 =
      (if k < (n + 1) / 2 then (k : ℚ) else (k : ℚ) - n) * rate / n := by
  rw [np_fftfreq, List.getD_eq_getElem _ _ (by simpa using h)]
  simp

theorem getD_take {α : Type} (l : List α) (d : α) {m i : ℕ} (h : i < m) :
    (l.take m).getD i d = l.getD i d := by
  simp [List.getD, List.getElem?_take_of_lt h]

theorem defaultProcessor_freq_bins :
    defaultProcessor.freq_bins = np_fftfreq 1024 44100 := by
  rw [defaultProcessor, AudioProcessor.init]
  norm_num

theorem defaultProcessor_buffer_size : defaultProcessor.buffer_size = 1024 := by
  rw [defaultProcessor, AudioProcessor.init]

theorem defaultProcessor_cached_window : defaultProcessor.cached_window = hann 1024 := by
  rw [defaultProcessor, AudioProcessor.init]

theorem defaultProcessor_onset_threshold :
    defaultProcessor.onset_threshold = (0.3 : ℝ) := by
  rw [defaultProcessor, AudioProcessor.init]

/-- The first 512 default frequency bins, i.e. the bins that any slice
`freq_bins[:half]` with `half ≤ 512` consists of, carry `k * 44100 / 1024`. -/
theorem freq_getD_of_lt {k : ℕ} (h : k < 512) :
    (np_fftfreq 1024 44100).getD k 0 = (k : ℚ) * 44100 / 1024 := by
  rw [np_fftfreq_getD 1024 44100 (by omega)]
  rw [if_pos (by omega)]
  norm_num

/-- The prefix `freq_bins[:half]` is monotone when `half ≤ 512`. -/
theorem freq_take_mono {half : ℕ} (h512 : half ≤ 512) :
    ∀ i j, i ≤ j → j < ((np_fftfreq 1024 44100).take half).length →
      ((np_fftfreq 1024 44100).take half).getD i 0 ≤
        ((np_fftfreq 1024 44100).take half).getD j 0 := by
  intro i j hij hj
  have hlen : ((np_fftfreq 1024 44100).take half).length = half := by
    simp [np_fftfreq_length]
    omega
  rw [hlen] at hj
  rw [getD_take _ _ (by omega), getD_take _ _ hj,
    freq_getD_of_lt (by omega), freq_getD_of_lt (by omega)]
  have hc : (i : ℚ) ≤ (j : ℚ) := by exact_mod_cast hij
  have : (0:ℚ) < 44100 / 1024 := by norm_num
  rw [mul_div_assoc, mul_div_assoc]
  exact mul_le_mul_of_nonneg_right hc (by norm_num)

/-- `searchsorted(freq_bins[:half], 20) = 1` whenever `2 ≤ half ≤ 512`: bin 0
is DC (0 Hz) and every later bin in the sorted prefix is ≥ 43 Hz. -/
theorem min_idx_take {half : ℕ} (h2 : 2 ≤ half) (h512 : half ≤ 512) :
    np_searchsorted ((np_fftfreq 1024 44100).take half) 20 = 1 := by
  obtain ⟨hle, hlt, hge⟩ :=
    np_searchsorted_sorted ((np_fftfreq 1024 44100).take half) 20 (freq_take_mono h512)
  have hlen : ((np_fftfreq 1024 44100).take half).length = half := by
    simp [np_fftfreq_length]
    omega
  rw [hlen] at hle hge
  have h0 : ((np_fftfreq 1024 44100).take half).getD 0 0 < 20 := by
    rw [getD_take _ _ (by omega), freq_getD_of_lt (by omega)]
    norm_num
  have h1 : ¬ ((np_fftfreq 1024 44100).take half).getD 1 0 < 20 := by
    rw [getD_take _ _ (by omega), freq_getD_of_lt (by omega)]
    norm_num
  by_contra hne
  rcases Nat.lt_or_ge (np_searchsorted ((np_fftfreq 1024 44100).take half) 20) 1 with h | h
  · have : np_searchsorted ((np_fftfreq 1024 44100).take half) 20 = 0 := by omega
    exact hge 0 (by omega) (by omega) h0
  · exact h1 (hlt 1 (by omega))

/-- `searchsorted` over the whole 1024-bin array lands at 1024: the binary
search's first probe hits the negative-frequency half and every later probe
stays there. -/
theorem min_idx_full : np_searchsorted (np_fftfreq 1024 44100) 20 = 1024 := by
  have hneg : ∀ i, 513 ≤ i → i < 1024 → (np_fftfreq 1024 44100).getD i 0 < 20 := by
    intro i h1 h2
    rw [np_fftfreq_getD 1024 44100 (by omega), if_neg (by omega)]
    have hc : (i : ℚ) < 1024 := by exact_mod_cast h2
    have hn : ((i : ℚ) - 1024) * 44100 / 1024 < 0 :=
      div_neg_of_neg_of_pos (mul_neg_of_neg_of_pos (by linarith) (by norm_num)) (by norm_num)
    linarith
  have hlen : (np_fftfreq 1024 44100).length = 1024 := np_fftfreq_length _ _
  rw [np_searchsorted, hlen, bisectLeft]
  rw [dif_pos (by omega)]
  have hmid : (np_fftfreq 1024 44100).getD ((0 + 1024) / 2) 0 < 20 := by
    have : (0 + 1024) / 2 = 512 := by omega
    rw [this, np_fftfreq_getD 1024 44100 (by omega), if_neg (by omega)]
    norm_num
  rw [if_pos hmid]
  have : (0 + 1024) / 2 + 1 = 513 := by omega
  rw [this]
  exact bisectLeft_all_lt _ 20 1024 513 1024 (by omega) (by omega) hneg

/-! ## Lemmas: spectrum shape -/

theorem hann_length (M : ℕ) : (hann M).length = M := by
  rw [hann]
  split
  · exact List.length_replicate _ _
  · rw [List.length_map, List.length_range]

theorem np_fft_length (x : List ℝ) : (np_fft x).length = x.length := by
  simp [np_fft]

theorem defaultProcessor_cached_window_length :
    defaultProcessor.cached_window.length = defaultProcessor.buffer_size := by
  rw [defaultProcessor_cached_window, defaultProcessor_buffer_size, hann_length]

theorem window_length (self : AudioProcessor)
    (hw : self.cached_window.length = self.buffer_size) (n : ℕ) :
    (if n = self.buffer_size then self.cached_window else hann n).length = n := by
  split
  · rename_i h; rw [hw, h]
  · exact hann_length _

theorem compute_fft_length (self : AudioProcessor)
    (hw : self.cached_window.length = self.buffer_size) (x : List ℝ) :
    (compute_fft self x).length = x.length / 2 := by
  have hwin := window_length self hw x.length
  simp [compute_fft, np_fft_length, List.length_zipWith, hwin]
  omega

/-- When the cached window really is the Hann window of the configured size
(as `__init__` guarantees), `compute_fft` matches the specification's
"magnitudes of the first half of the DFT of the windowed frame, divided by
the number of samples". -/
theorem compute_fft_eq_magnitudes_spec (self : AudioProcessor)
    (hw : self.cached_window = hann self.buffer_size) (x : List ℝ) :
    compute_fft self x = magnitudes_spec (List.zipWith (· * ·) x (hann x.length)) := by
  have hwin : (if x.length = self.buffer_size then self.cached_window else hann x.length)
      = hann x.length := by
    split
    · rename_i h; rw [hw, h]
    · rfl
  have hzlen : (List.zipWith (· * ·) x (hann x.length)).length = x.length := by
    simp [List.length_zipWith, hann_length]
  rw [compute_fft, magnitudes_spec, hwin, hzlen, List.map_map, np_fft_length, hzlen]
  rfl

/-! ## Lemmas: the dominant-frequency search and extraction -/

theorem defaultProcessor_sample_rate : defaultProcessor.sample_rate = 44100 := by
  rw [defaultProcessor, AudioProcessor.init]

theorem freq_get?_of_lt {k : ℕ} (h : k < 512) :
    (np_fftfreq 1024 44100).get? k = some ((k : ℚ) * 44100 / 1024) := by
  rw [List.get?_eq_getElem?, np_fftfreq]
  rw [List.getElem?_map, List.getElem?_range (by omega : k < 1024)]
  simp only [Option.map_some']
  rw [if_pos (by omega : k < (1024 + 1) / 2)]
  norm_num

/-- Unfolding `find_dominant_freq` when the peak search succeeds and the peak
index is in range. -/
theorem find_dominant_freq_spec_some {α : Type} [LinearOrder α] (self : AudioProcessor)
    (spectrum : List α) (mi j : ℕ) (q : ℚ)
    (hmin : np_searchsorted (self.freq_bins.take spectrum.length) 20 = mi)
    (harg : np_argmax (spectrum.drop mi) = some j)
    (hget : (self.freq_bins.take spectrum.length).get? (j + mi) = some q) :
    find_dominant_freq self spectrum = some q := by
  simp only [find_dominant_freq, hmin, harg, hget]

/-- Unfolding `find_dominant_freq` when the `argmax` slice is empty
(the `ValueError` path). -/
theorem find_dominant_freq_spec_none_empty {α : Type} [LinearOrder α]
    (self : AudioProcessor) (spectrum : List α) (mi : ℕ)
    (hmin : np_searchsorted (self.freq_bins.take spectrum.length) 20 = mi)
    (harg : np_argmax (spectrum.drop mi) = none) :
    find_dominant_freq self spectrum = none := by
  simp only [find_dominant_freq, hmin, harg]

/-- Unfolding `find_dominant_freq` when the peak index overruns the frequency
array (the `IndexError` path). -/
theorem find_dominant_freq_spec_none_oob {α : Type} [LinearOrder α]
    (self : AudioProcessor) (spectrum : List α) (mi j : ℕ)
    (hmin : np_searchsorted (self.freq_bins.take spectrum.length) 20 = mi)
    (harg : np_argmax (spectrum.drop mi) = some j)
    (hget : (self.freq_bins.take spectrum.length).get? (j + mi) = none) :
    find_dominant_freq self spectrum = none := by
  simp only [find_dominant_freq, hmin, harg, hget]

/-- Unfolding `extract_features` when the dominant-frequency search succeeds. -/
theorem extract_features_spec_some (self : AudioProcessor) (prev now : ℝ)
    (frame : List ℝ) {q : ℚ}
    (h : find_dominant_freq self (compute_fft self frame) = some q) :
    extract_features self prev now frame =
      some ([("timestamp", PyVal.float now),
             ("spectrum", PyVal.floatList (compute_fft self frame)),
             ("dominant_freq", PyVal.float ((q : ℚ) : ℝ)),
             ("rms", PyVal.float (compute_rms frame)),
             ("onset", PyVal.bool
               (detect_onset self.onset_threshold prev (compute_rms frame)).1),
             ("sample_rate", PyVal.int (self.sample_rate : ℤ))],
            (detect_onset self.onset_threshold prev (compute_rms frame)).2) := by
  simp only [extract_features, h]

/-- Unfolding `extract_features` when the dominant-frequency search raises. -/
theorem extract_features_spec_none (self : AudioProcessor) (prev now : ℝ)
    (frame : List ℝ)
    (h : find_dominant_freq self (compute_fft self frame) = none) :
    extract_features self prev now frame = none := by
  simp only [extract_features, h]

/-- On a spectrum whose length is between 2 and 512, the default processor's
dominant-frequency search succeeds and returns the frequency of a bin `p ≥ 1`
(hence ≥ 20 Hz) whose magnitude is maximal among the bins from index 1 up. -/
theorem find_dominant_freq_default_spec {α : Type} [LinearOrder α] (d : α)
    (spectrum : List α) (h2 : 2 ≤ spectrum.length) (h512 : spectrum.length ≤ 512) :
    ∃ p, 1 ≤ p ∧ p < spectrum.length ∧
      find_dominant_freq defaultProcessor spectrum = some ((p : ℚ) * 44100 / 1024) ∧
      ∀ i, 1 ≤ i → i < spectrum.length → spectrum.getD i d ≤ spectrum.getD p d := by
  have hmin : np_searchsorted (defaultProcessor.freq_bins.take spectrum.length) 20 = 1 := by
    rw [defaultProcessor_freq_bins]
    exact min_idx_take h2 h512
  have hdropne : spectrum.drop 1 ≠ [] := by
    intro hcon
    have := congrArg List.length hcon
    rw [List.length_drop] at this
    simp at this
    omega
  obtain ⟨j, hjeq, hjlt, hjmax⟩ := np_argmax_spec d (spectrum.drop 1) hdropne
  rw [List.length_drop] at hjlt
  refine ⟨j + 1, by omega, by omega, ?_, ?_⟩
  · apply find_dominant_freq_spec_some defaultProcessor spectrum 1 j _ hmin hjeq
    rw [defaultProcessor_freq_bins, List.get?_eq_getElem?,
      List.getElem?_take_of_lt (by omega : j + 1 < spectrum.length),
      ← List.get?_eq_getElem?, freq_get?_of_lt (by omega)]
  · intro i h1 hi
    obtain ⟨i', rfl⟩ : ∃ i', i = i' + 1 := ⟨i - 1, by omega⟩
    have hgd : (spectrum.drop 1).getD i' d = spectrum.getD (i' + 1) d := by
      simp [List.getD, List.getElem?_drop, Nat.add_comm]
    have hgp : (spectrum.drop 1).getD j d = spectrum.getD (j + 1) d := by
      simp [List.getD, List.getElem?_drop, Nat.add_comm]
    rw [← hgd, ← hgp]
    exact hjmax i' (by rw [List.length_drop]; omega)

theorem defaultProcessor_sample_rate_cast :
    ((defaultProcessor.sample_rate : ℕ) : ℤ) = 44100 := by
  rw [defaultProcessor_sample_rate]
  norm_num

/-- Successful extraction on the default processor, for frames whose spectrum
has between 2 and 512 bins: the exact returned dictionary and the maximality
property of the reported dominant frequency. -/
theorem extract_features_default_spec (prev now : ℝ) (frame : List ℝ)
    (h2 : 2 ≤ frame.length / 2) (h512 : frame.length / 2 ≤ 512) :
    ∃ p, 1 ≤ p ∧ p < frame.length / 2 ∧
      extract_features defaultProcessor prev now frame =
        some ([("timestamp", PyVal.float now),
               ("spectrum", PyVal.floatList (compute_fft defaultProcessor frame)),
               ("dominant_freq", PyVal.float (((p : ℚ) * 44100 / 1024 : ℚ) : ℝ)),
               ("rms", PyVal.float (compute_rms frame)),
               ("onset", PyVal.bool
                 (decide (compute_rms frame - prev > defaultProcessor.onset_threshold))),
               ("sample_rate", PyVal.int 44100)], compute_rms frame) ∧
      ∀ i, 1 ≤ i → i < frame.length / 2 →
        (compute_fft defaultProcessor frame).getD i 0 ≤
          (compute_fft defaultProcessor frame).getD p 0 := by
  have hlen : (compute_fft defaultProcessor frame).length = frame.length / 2 :=
    compute_fft_length _ defaultProcessor_cached_window_length _
  obtain ⟨p, hp1, hp2, hpeq, hpmax⟩ :=
    find_dominant_freq_default_spec (0 : ℝ) (compute_fft defaultProcessor frame)
      (by omega) (by omega)
  refine ⟨p, hp1, by omega, ?_, fun i hi1 hi2 => hpmax i hi1 (by omega)⟩
  rw [extract_features_spec_some defaultProcessor prev now frame hpeq]
  simp only [detect_onset, defaultProcessor_sample_rate_cast]

/-- `searchsorted(freq_bins[:half], 20) = half` for `half ≤ 1`: a degenerate
prefix holds at most the DC bin, which is below 20 Hz. -/
theorem min_idx_take_small {half : ℕ} (h1 : half ≤ 1) :
    np_searchsorted ((np_fftfreq 1024 44100).take half) 20 =
      ((np_fftfreq 1024 44100).take half).length := by
  have hlen : ((np_fftfreq 1024 44100).take half).length = half := by
    simp [np_fftfreq_length]
    omega
  rw [np_searchsorted]
  apply bisectLeft_all_lt _ 20 ((np_fftfreq 1024 44100).take half).length 0 _ (by omega)
    (by omega)
  intro i _ hilt
  rw [hlen] at hilt
  have : i = 0 := by omega
  subst this
  rw [getD_take _ _ (by omega), freq_getD_of_lt (by omega)]
  norm_num

/-- Extraction on the default processor raises (returns nothing) on frames
with at most 3 samples: the slice `spectrum[min_idx:]` handed to `np.argmax`
is empty. -/
theorem extract_features_default_small (prev now : ℝ) (frame : List ℝ)
    (hsmall : frame.length / 2 ≤ 1) :
    extract_features defaultProcessor prev now frame = none := by
  have hlen : (compute_fft defaultProcessor frame).length = frame.length / 2 :=
    compute_fft_length _ defaultProcessor_cached_window_length _
  apply extract_features_spec_none
  apply find_dominant_freq_spec_none_empty defaultProcessor (compute_fft defaultProcessor frame)
    (compute_fft defaultProcessor frame).length
  · rw [defaultProcessor_freq_bins]
    rw [min_idx_take_small
      (show (compute_fft defaultProcessor frame).length ≤ 1 by omega)]
    rw [List.length_take, np_fftfreq_length]
    omega
  · rw [List.drop_length]
    rfl

/-- Extraction on the default processor raises (returns nothing) on frames
with at least 2048 samples: the binary search lands at index 1024, so either
the `argmax` slice is empty (at exactly 2048–2049 samples) or the peak index
overruns the 1024-entry frequency array. -/
theorem extract_features_default_big (prev now : ℝ) (frame : List ℝ)
    (hbig : 1024 ≤ frame.length / 2) :
    extract_features defaultProcessor prev now frame = none := by
  have hlen : (compute_fft defaultProcessor frame).length = frame.length / 2 :=
    compute_fft_length _ defaultProcessor_cached_window_length _
  have htake : defaultProcessor.freq_bins.take (compute_fft defaultProcessor frame).length =
      np_fftfreq 1024 44100 := by
    rw [defaultProcessor_freq_bins]
    apply List.take_of_length_le
    rw [np_fftfreq_length]
    omega
  have hmin : np_searchsorted
      (defaultProcessor.freq_bins.take (compute_fft defaultProcessor frame).length) 20
      = 1024 := by
    rw [htake]
    exact min_idx_full
  apply extract_features_spec_none
  cases hargmax : np_argmax ((compute_fft defaultProcessor frame).drop 1024) with
  | none =>
    exact find_dominant_freq_spec_none_empty defaultProcessor _ 1024 hmin hargmax
  | some j =>
    apply find_dominant_freq_spec_none_oob defaultProcessor _ 1024 j hmin hargmax
    rw [htake, List.get?_eq_getElem?]
    apply List.getElem?_eq_none
    rw [np_fftfreq_length]
    omega

/-! ## Lemmas: band energies (index-based code vs. zip-based specification) -/

/-- `np.where`-style index selection followed by gathering equals filtering
the zipped (frequency, magnitude) pairs. -/
theorem filter_range_getD_eq_zip {α : Type} (d : α) (lo hi : ℚ) :
    ∀ (fs : List ℚ) (ms : List α), fs.length ≤ ms.length →
      (((List.range fs.length).filter fun i =>
          decide (lo ≤ fs.getD i 0 ∧ fs.getD i 0 < hi)).map fun i => ms.getD i d) =
        ((fs.zip ms).filter fun p => decide (lo ≤ p.1 ∧ p.1 < hi)).map Prod.snd := by
  intro fs
  induction fs with
  | nil => intro ms _; simp
  | cons f fs' ih =>
    intro ms h
    cases ms with
    | nil => simp at h
    | cons m ms' =>
      have hlen : fs'.length ≤ ms'.length := by simpa using h
      rw [List.length_cons, List.range_succ_eq_map, List.filter_cons, List.filter_map]
      have hpred : ∀ i ∈ List.range fs'.length,
          ((fun i => decide (lo ≤ (f :: fs').getD i 0 ∧ (f :: fs').getD i 0 < hi)) ∘
            Nat.succ) i = decide (lo ≤ fs'.getD i 0 ∧ fs'.getD i 0 < hi) := by
        intro i _
        rfl
      rw [List.filter_congr hpred]
      rw [List.zip_cons_cons, List.filter_cons]
      cases hPf : decide (lo ≤ f ∧ f < hi) with
      | false =>
        have hPf0 : decide (lo ≤ (f :: fs').getD 0 0 ∧ (f :: fs').getD 0 0 < hi) = false := hPf
        rw [hPf0]
        simp only [Bool.false_eq_true, if_false, List.map_map]
        rw [← ih ms' hlen]
        apply List.map_congr_left
        intro i _
        rfl
      | true =>
        have hPf0 : decide (lo ≤ (f :: fs').getD 0 0 ∧ (f :: fs').getD 0 0 < hi) = true := hPf
        rw [hPf0]
        simp only [eq_self_iff_true, if_true, List.map_cons, List.map_map]
        rw [← ih ms' hlen]
        refine congrArg₂ List.cons ?_ ?_
        · rfl
        · apply List.map_congr_left
          intro i _
          rfl

/-- `band_mean` over gathered indices, rephrased through the gathered values. -/
theorem band_mean_map {α : Type} [LinearOrderedField α] (mags : List α) (idx : List ℕ)
    (vals : List α) (h : (idx.map fun i => mags.getD i 0) = vals) :
    band_mean mags idx = if vals.isEmpty then 0 else vals.sum / (vals.length : α) := by
  subst h
  rw [band_mean]
  by_cases h0 : 0 < idx.length
  · have hne : (idx.map fun i => mags.getD i (0 : α)).isEmpty = false := by
      cases idx with
      | nil => simp at h0
      | cons a l => rfl
    rw [if_pos h0, hne]
    simp only [Bool.false_eq_true, if_false, List.length_map]
  · rw [if_neg h0]
    have : idx = [] := by
      cases idx with
      | nil => rfl
      | cons a l => simp at h0
    subst this
    simp

/-- The code's `get_frequency_bands` computes exactly the specification's
three per-band arithmetic means. -/
theorem band_mean_eq {α : Type} [LinearOrderedField α] (freqs : List ℚ) (mags : List α)
    (hle : freqs.length ≤ mags.length) (lo hi : ℚ) :
    band_mean mags (np_where_band freqs lo hi) = band_mean_spec freqs mags lo hi := by
  have hz := filter_range_getD_eq_zip (0 : α) lo hi freqs mags hle
  rw [np_where_band, band_mean_map mags _ _ hz, band_mean_spec]

theorem length_take_le {α : Type} (l : List α) (n : ℕ) : (l.take n).length ≤ n := by
  rw [List.length_take]
  exact min_le_left _ _

theorem get_frequency_bands_eq {α : Type} [LinearOrderedField α] (self : AudioProcessor)
    (spectrum : List α) :
    get_frequency_bands self spectrum =
      (band_mean_spec (self.freq_bins.take spectrum.length) spectrum 20 250,
       band_mean_spec (self.freq_bins.take spectrum.length) spectrum 250 2000,
       band_mean_spec (self.freq_bins.take spectrum.length) spectrum 2000 20000) := by
  have hle : (self.freq_bins.take spectrum.length).length ≤ spectrum.length :=
    length_take_le _ _
  simp only [get_frequency_bands]
  rw [band_mean_eq _ _ hle, band_mean_eq _ _ hle, band_mean_eq _ _ hle]

/-! ## Lemmas: RMS bounds -/

theorem compute_rms_nonneg (x : List ℝ) : 0 ≤ compute_rms x := Real.sqrt_nonneg _

theorem compute_rms_le_one (x : List ℝ) (hb : ∀ s ∈ x, |s| ≤ 1) :
    compute_rms x ≤ 1 := by
  have hsum : (x.map fun s => s ^ 2).sum ≤ (x.map fun s => s ^ 2).length • (1 : ℝ) := by
    apply List.sum_le_card_nsmul
    intro y hy
    obtain ⟨s, hs, rfl⟩ := List.mem_map.mp hy
    exact (sq_le_one_iff_abs_le_one s).mpr (hb s hs)
  rw [List.length_map, nsmul_eq_mul, mul_one] at hsum
  have hmean : ((x.map fun s => s ^ 2).sum / (x.length : ℝ)) ≤ 1 := by
    cases x with
    | nil => simp
    | cons a l => exact div_le_one_of_le₀ hsum (by positivity)
  calc compute_rms x ≤ Real.sqrt 1 := Real.sqrt_le_sqrt hmean
    _ = 1 := Real.sqrt_one

/-! ## Claim theorems -/

/-- C1 (counterexample): the claim "a Mapper invocation reads either the
entire old document or the entire new document" is false: while
`update_ai_reasoning` runs on the default document with calm aggregated RMS,
the intermediate shared state (after the `size_range` write, before the
`bass.hue` write) is neither the old nor the new document. -/
theorem C1_counterexample :
    ¬ (∀ s ∈ update_ai_states (get_default_rules "") 0,
        s = get_default_rules "" ∨ s = update_ai_reasoning (get_default_rules "") 0) := by
  intro hall
  have hmem : write_size_range (get_default_rules "") (ai_new_size_range 0) ∈
      update_ai_states (get_default_rules "") 0 := by
    rw [update_ai_states]
    exact List.mem_cons_of_mem _ (List.mem_cons_self _ _)
  have hcalm : ¬ ((0 : ℚ) > 0.3) := by norm_num
  rcases hall _ hmem with h | h
  · have hproj := congrArg (fun d => d.rules.particle_mapping.size_range.1) h
    simp only [write_size_range, ai_new_size_range, hcalm, if_false, get_default_rules]
      at hproj
    norm_num at hproj
  · have hproj := congrArg (fun d => d.rules.color_mapping.frequency_ranges.bass.hue.1) h
    simp only [write_size_range, write_bass_hue, update_ai_reasoning, ai_new_bass_hue,
      hcalm, if_false, get_default_rules] at hproj
    norm_num at hproj

/-- C1 (amended): `update_ai_reasoning` performs its replacement as two
separate in-place writes (the particle size range, then the bass hue), so a
concurrently running Mapper invocation can observe a mixed document carrying
the new size range together with the old bass hue; only invocations that do
not interleave with the update (before the first write or after the second)
observe a consistent document. -/
theorem C1_rules_update_interleaving (r : MappingRules) (avg : ℚ)
    (hsz : r.rules.particle_mapping.size_range ≠ ai_new_size_range avg)
    (hhue : r.rules.color_mapping.frequency_ranges.bass.hue ≠ ai_new_bass_hue avg) :
    (update_ai_states r avg).head? = some r ∧
    (update_ai_states r avg).getLast? = some (update_ai_reasoning r avg) ∧
    (update_ai_reasoning r avg).rules.color_mapping.frequency_ranges.bass.hue =
      ai_new_bass_hue avg ∧
    (update_ai_reasoning r avg).rules.particle_mapping.size_range =
      ai_new_size_range avg ∧
    ∃ s ∈ update_ai_states r avg, s ≠ r ∧ s ≠ update_ai_reasoning r avg ∧
      s.rules.particle_mapping.size_range = ai_new_size_range avg ∧
      s.rules.color_mapping.frequency_ranges.bass.hue =
        r.rules.color_mapping.frequency_ranges.bass.hue := by
  refine ⟨rfl, rfl, rfl, rfl,
    write_size_range r (ai_new_size_range avg), ?_, ?_, ?_, rfl, rfl⟩
  · rw [update_ai_states]
    exact List.mem_cons_of_mem _ (List.mem_cons_self _ _)
  · intro h
    exact hsz
      (((congrArg (fun d => d.rules.particle_mapping.size_range) h).symm).trans rfl)
  · intro h
    exact hhue
      (((congrArg (fun d => d.rules.color_mapping.frequency_ranges.bass.hue) h).trans rfl))

/-- C1 (witness): the amended statement applied to the default document with
calm aggregated RMS 0. -/
theorem C1_witness :
    ((get_default_rules "").rules.particle_mapping.size_range ≠ ai_new_size_range 0) ∧
    ((get_default_rules "").rules.color_mapping.frequency_ranges.bass.hue ≠
      ai_new_bass_hue 0) ∧
    ((update_ai_states (get_default_rules "") 0).head? = some (get_default_rules "") ∧
     (update_ai_states (get_default_rules "") 0).getLast? =
       some (update_ai_reasoning (get_default_rules "") 0) ∧
     (update_ai_reasoning (get_default_rules "") 0).rules.color_mapping.frequency_ranges.bass.hue =
       ai_new_bass_hue 0 ∧
     (update_ai_reasoning (get_default_rules "") 0).rules.particle_mapping.size_range =
       ai_new_size_range 0 ∧
     ∃ s ∈ update_ai_states (get_default_rules "") 0,
       s ≠ get_default_rules "" ∧ s ≠ update_ai_reasoning (get_default_rules "") 0 ∧
       s.rules.particle_mapping.size_range = ai_new_size_range 0 ∧
       s.rules.color_mapping.frequency_ranges.bass.hue =
         (get_default_rules "").rules.color_mapping.frequency_ranges.bass.hue) := by
  have hcalm : ¬ ((0 : ℚ) > 0.3) := by norm_num
  have hsz : (get_default_rules "").rules.particle_mapping.size_range ≠
      ai_new_size_range 0 := by
    simp only [get_default_rules, ai_new_size_range, hcalm, if_false]
    intro h
    rw [Prod.mk.injEq] at h
    norm_num at h
  have hhue : (get_default_rules "").rules.color_mapping.frequency_ranges.bass.hue ≠
      ai_new_bass_hue 0 := by
    simp only [get_default_rules, ai_new_bass_hue, hcalm, if_false]
    intro h
    rw [Prod.mk.injEq] at h
    norm_num at h
  exact ⟨hsz, hhue, C1_rules_update_interleaving (get_default_rules "") 0 hsz hhue⟩

/-- C2 (counterexample): the claim "extract returns a FeatureSnapshot that
contains band energies {bass, mid, treble}" is false: on a concrete frame the
returned dictionary carries exactly the keys timestamp, spectrum,
dominant_freq, rms, onset and sample_rate, and looking up any band key
yields nothing. -/
theorem C2_counterexample :
    (extract_features defaultProcessor 0 0 (List.replicate 4 (0 : ℝ))).map
        (fun res => res.1.map Prod.fst) =
      some ["timestamp", "spectrum", "dominant_freq", "rms", "onset", "sample_rate"] ∧
    (extract_features defaultProcessor 0 0 (List.replicate 4 (0 : ℝ))).map
        (fun res => (res.1.lookup "bass", res.1.lookup "mid", res.1.lookup "treble")) =
      some (none, none, none) := by
  obtain ⟨p, _, _, heq, _⟩ :=
    extract_features_default_spec 0 0 (List.replicate 4 (0 : ℝ)) (by simp) (by simp)
  rw [heq]
  constructor
  · rfl
  · rfl

/-- C2 (amended): `extract_features`'s snapshot does not include band
energies; the band-energy computation lives in the separate helper
`get_frequency_bands`, which for a given spectrum returns, for each of bass
[20,250) Hz, mid [250,2000) Hz and treble [2000,20000) Hz, the arithmetic
mean of the magnitude values whose bin frequency falls in the range, an empty
band yielding 0.0 rather than an error. -/
theorem C2_band_energies (self : AudioProcessor) (spectrum : List ℚ) :
    get_frequency_bands self spectrum =
      (band_mean_spec (self.freq_bins.take spectrum.length) spectrum 20 250,
       band_mean_spec (self.freq_bins.take spectrum.length) spectrum 250 2000,
       band_mean_spec (self.freq_bins.take spectrum.length) spectrum 2000 20000) :=
  get_frequency_bands_eq self spectrum

/-- C3 (counterexample): the claim quantifies over every AudioFrame, but on
a 1-sample frame extraction raises instead of reporting any dominant
frequency at all (the peak-search slice is empty), so "the dominant
frequency reported by extract" does not exist for that frame. -/
theorem C3_counterexample :
    extract_features defaultProcessor 0 0 [(0 : ℝ)] = none :=
  extract_features_default_small 0 0 [(0 : ℝ)] (by norm_num)

/-- C3 (amended): for every frame whose half-length lies between 2 and 512 —
in particular every frame of the configured length 1024 — extraction
succeeds and the reported dominant frequency is the frequency
`p * 44100 / 1024` of a bin `p` that lies at or above 20 Hz (`1 ≤ p`) and
whose magnitude is maximal among all bins whose frequency is at or above
20 Hz; the bins below 20 Hz (including DC at index 0) are excluded from the
peak search but the full magnitude sequence of `⌊n/2⌋` bins is returned in
the snapshot. -/
theorem C3_dominant_frequency (prev now : ℝ) (frame : List ℝ)
    (h2 : 2 ≤ frame.length / 2) (h512 : frame.length / 2 ≤ 512) :
    ∃ (d : List (String × PyVal ℝ)) (prev' : ℝ) (p : ℕ),
      extract_features defaultProcessor prev now frame = some (d, prev') ∧
      d.lookup "dominant_freq" = some (PyVal.float (((p : ℚ) * 44100 / 1024 : ℚ) : ℝ)) ∧
      1 ≤ p ∧ p < frame.length / 2 ∧
      (20 : ℚ) ≤ (p : ℚ) * 44100 / 1024 ∧
      d.lookup "spectrum" = some (PyVal.floatList (compute_fft defaultProcessor frame)) ∧
      (compute_fft defaultProcessor frame).length = frame.length / 2 ∧
      (∀ i : ℕ, i < frame.length / 2 → (20 : ℚ) ≤ (i : ℚ) * 44100 / 1024 →
        (compute_fft defaultProcessor frame).getD i 0 ≤
          (compute_fft defaultProcessor frame).getD p 0) := by
  obtain ⟨p, hp1, hp2, heq, hmax⟩ := extract_features_default_spec prev now frame h2 h512
  refine ⟨_, _, p, heq, ?_, hp1, hp2, ?_, ?_, ?_, ?_⟩
  · rfl
  · have hp1q : (1 : ℚ) ≤ (p : ℚ) := by exact_mod_cast hp1
    have hstep : (1 : ℚ) * (44100 / 1024) ≤ (p : ℚ) * (44100 / 1024) :=
      mul_le_mul_of_nonneg_right hp1q (by norm_num)
    rw [mul_div_assoc]
    linarith [hstep]
  · rfl
  · exact compute_fft_length _ defaultProcessor_cached_window_length _
  · intro i hi hfreq
    have hi1 : 1 ≤ i := by
      by_contra hcon
      have : i = 0 := by omega
      subst this
      norm_num at hfreq
    exact hmax i hi1 hi

/-- C3 (witness): the half-length hypotheses hold for the 1024-sample silent
frame. -/
theorem C3_witness :
    2 ≤ (List.replicate 1024 (0 : ℝ)).length / 2 ∧
    (List.replicate 1024 (0 : ℝ)).length / 2 ≤ 512 ∧
    (∃ (d : List (String × PyVal ℝ)) (prev' : ℝ) (p : ℕ),
      extract_features defaultProcessor 0 0 (List.replicate 1024 (0 : ℝ)) =
        some (d, prev') ∧
      d.lookup "dominant_freq" = some (PyVal.float (((p : ℚ) * 44100 / 1024 : ℚ) : ℝ)) ∧
      1 ≤ p ∧ p < (List.replicate 1024 (0 : ℝ)).length / 2 ∧
      (20 : ℚ) ≤ (p : ℚ) * 44100 / 1024 ∧
      d.lookup "spectrum" =
        some (PyVal.floatList (compute_fft defaultProcessor (List.replicate 1024 (0 : ℝ)))) ∧
      (compute_fft defaultProcessor (List.replicate 1024 (0 : ℝ))).length =
        (List.replicate 1024 (0 : ℝ)).length / 2 ∧
      (∀ i : ℕ, i < (List.replicate 1024 (0 : ℝ)).length / 2 →
        (20 : ℚ) ≤ (i : ℚ) * 44100 / 1024 →
        (compute_fft defaultProcessor (List.replicate 1024 (0 : ℝ))).getD i 0 ≤
          (compute_fft defaultProcessor (List.replicate 1024 (0 : ℝ))).getD p 0)) := by
  have ha : 2 ≤ (List.replicate 1024 (0 : ℝ)).length / 2 := by
    rw [List.length_replicate]
    omega
  have hb : (List.replicate 1024 (0 : ℝ)).length / 2 ≤ 512 := by
    rw [List.length_replicate]
  exact ⟨ha, hb, C3_dominant_frequency 0 0 (List.replicate 1024 (0 : ℝ)) ha hb⟩

/-- C4: for every frame of the configured length 1024 with samples in
[-1, 1], extraction succeeds; the snapshot's magnitude sequence is exactly
`compute_fft` of the frame, has length `⌊1024/2⌋ = 512`, and equals the
specification's "magnitudes of the first half of the DFT of the windowed
frame, each divided by the number of samples"; the snapshot's RMS equals the
square root of the mean of the squared samples and lies in [0, 1]. -/
theorem C4_spectrum_rms (prev now : ℝ) (frame : List ℝ)
    (hlen : frame.length = 1024) (hb : ∀ s ∈ frame, |s| ≤ 1) :
    ∃ d prev',
      extract_features defaultProcessor prev now frame = some (d, prev') ∧
      d.lookup "spectrum" = some (PyVal.floatList (compute_fft defaultProcessor frame)) ∧
      (compute_fft defaultProcessor frame).length = frame.length / 2 ∧
      compute_fft defaultProcessor frame =
        magnitudes_spec (List.zipWith (· * ·) frame (hann frame.length)) ∧
      d.lookup "rms" = some (PyVal.float (compute_rms frame)) ∧
      compute_rms frame =
        Real.sqrt ((frame.map fun s => s ^ 2).sum / (frame.length : ℝ)) ∧
      0 ≤ compute_rms frame ∧ compute_rms frame ≤ 1 := by
  obtain ⟨p, _, _, heq, _⟩ :=
    extract_features_default_spec prev now frame (by omega) (by omega)
  refine ⟨_, _, heq, ?_, ?_, ?_, ?_, rfl, compute_rms_nonneg frame,
    compute_rms_le_one frame hb⟩
  · rfl
  · exact compute_fft_length _ defaultProcessor_cached_window_length _
  · refine compute_fft_eq_magnitudes_spec defaultProcessor ?_ frame
    rw [defaultProcessor_cached_window, defaultProcessor_buffer_size]
  · rfl

/-- C4 (witness): both hypotheses hold for the 1024-sample silent frame. -/
theorem C4_witness :
    (List.replicate 1024 (0 : ℝ)).length = 1024 ∧
    (∀ s ∈ List.replicate 1024 (0 : ℝ), |s| ≤ 1) ∧
    (∃ d prev',
      extract_features defaultProcessor 0 0 (List.replicate 1024 (0 : ℝ)) =
        some (d, prev') ∧
      d.lookup "spectrum" =
        some (PyVal.floatList (compute_fft defaultProcessor (List.replicate 1024 (0 : ℝ)))) ∧
      (compute_fft defaultProcessor (List.replicate 1024 (0 : ℝ))).length =
        (List.replicate 1024 (0 : ℝ)).length / 2 ∧
      compute_fft defaultProcessor (List.replicate 1024 (0 : ℝ)) =
        magnitudes_spec (List.zipWith (· * ·) (List.replicate 1024 (0 : ℝ))
          (hann (List.replicate 1024 (0 : ℝ)).length)) ∧
      d.lookup "rms" = some (PyVal.float (compute_rms (List.replicate 1024 (0 : ℝ)))) ∧
      compute_rms (List.replicate 1024 (0 : ℝ)) =
        Real.sqrt (((List.replicate 1024 (0 : ℝ)).map fun s => s ^ 2).sum /
          ((List.replicate 1024 (0 : ℝ)).length : ℝ)) ∧
      0 ≤ compute_rms (List.replicate 1024 (0 : ℝ)) ∧
      compute_rms (List.replicate 1024 (0 : ℝ)) ≤ 1) := by
  have h1 : (List.replicate 1024 (0 : ℝ)).length = 1024 := by rw [List.length_replicate]
  have h2 : ∀ s ∈ List.replicate 1024 (0 : ℝ), |s| ≤ 1 := by
    intro s hs
    rw [List.eq_of_mem_replicate hs]
    norm_num
  exact ⟨h1, h2, C4_spectrum_rms 0 0 (List.replicate 1024 (0 : ℝ)) h1 h2⟩

/-- C5: onset detection reports `onset = true` iff the current RMS exceeds
the stored previous RMS by more than the threshold, and it unconditionally
stores the current RMS as the new previous RMS; the configured threshold
defaults to 0.3, and from a stored previous RMS of 0.0 the RMS sequence
[0.0, 0.0, 0.9] yields onsets [false, false, true]. -/
theorem C5_onset :
    (∀ threshold prev cur : ℚ,
        ((detect_onset threshold prev cur).1 = true ↔ cur - prev > threshold) ∧
        (detect_onset threshold prev cur).2 = cur) ∧
    defaultProcessor.onset_threshold = (0.3 : ℝ) ∧
    run_onsets (0.3 : ℚ) 0 [0, 0, 0.9] = [false, false, true] := by
  refine ⟨fun t p c => ⟨?_, rfl⟩, defaultProcessor_onset_threshold, ?_⟩
  · simp [detect_onset]
  · have hno : ¬ ((0 : ℚ) - 0 > 0.3) := by norm_num
    have hyes : (0.9 : ℚ) - 0 > 0.3 := by norm_num
    simp only [run_onsets, detect_onset]
    rw [decide_eq_false hno, decide_eq_true hyes]

/-- C6: for the capacity-10 frame queue, pushing onto a full queue drops the
incoming frame and leaves the queue — every previously queued frame, in its
original order — unchanged (and the callback returns rather than raising,
`queue.Full` being swallowed); pushing onto a non-full queue appends; and
popping from a queue that stays empty (the `queue.Empty` timeout) yields an
empty result, which the processing loop treats as "continue", not as an
error. -/
theorem C6_frame_queue :
    (∀ (q : List (List ℝ)) (x : List ℝ), 10 ≤ q.length → audio_callback q x = q) ∧
    (∀ (q : List (List ℝ)) (x : List ℝ), q.length < 10 → audio_callback q x = q ++ [x]) ∧
    queue_get ([] : List (List ℝ)) = none ∧
    (∀ prev now : ℝ, process_loop_step defaultProcessor prev now [] = (prev, [])) := by
  refine ⟨?_, ?_, rfl, fun prev now => rfl⟩
  · intro q x h
    simp [audio_callback, put_nowait, Nat.not_lt.mpr h]
  · intro q x h
    simp [audio_callback, put_nowait, h]

/-- C6 (witness): a full queue of ten frames drops the eleventh push
unchanged; an empty queue accepts a push. -/
theorem C6_witness :
    10 ≤ (List.replicate 10 [(0 : ℝ)]).length ∧
    audio_callback (List.replicate 10 [(0 : ℝ)]) [1] = List.replicate 10 [(0 : ℝ)] ∧
    ([] : List (List ℝ)).length < 10 ∧
    audio_callback ([] : List (List ℝ)) [(1 : ℝ)] = [] ++ [[1]] := by
  have h1 : 10 ≤ (List.replicate 10 [(0 : ℝ)]).length := by
    rw [List.length_replicate]
  have h2 : ([] : List (List ℝ)).length < 10 := by simp
  exact ⟨h1, C6_frame_queue.1 _ _ h1, h2, C6_frame_queue.2.1 _ _ h2⟩

/-- C7: for every rules document and every rms, `map_rms_to_particles`
returns the truncation toward zero of `10 + rms² · 100` as the count and
`size_lo + rms · (size_hi − size_lo)` (with the document's size range) as
the size; on the default document, rms 0 yields (10, 5) and rms 1 yields
(110, 50). -/
theorem C7_rms_to_particles :
    (∀ (rules : MappingRules) (rms : ℚ),
        map_rms_to_particles rules rms =
          (int_py (10 + rms ^ 2 * 100),
           rules.rules.particle_mapping.size_range.1 +
             rms * (rules.rules.particle_mapping.size_range.2 -
               rules.rules.particle_mapping.size_range.1))) ∧
    (∀ now, map_rms_to_particles (get_default_rules now) 0 = (10, 5)) ∧
    (∀ now, map_rms_to_particles (get_default_rules now) 1 = (110, 50)) := by
  refine ⟨fun rules rms => ?_, fun now => ?_, fun now => ?_⟩
  · have hsq : 10 + rms ^ 2 * 100 = 10 + rms * rms * 100 := by ring
    rw [map_rms_to_particles, hsq]
  · rw [map_rms_to_particles, get_default_rules]
    have h0 : (10 : ℚ) + 0 * 0 * 100 = 10 := by norm_num
    rw [h0]
    have hint : int_py 10 = 10 := by
      rw [int_py, if_neg (by norm_num)]
      norm_num
    rw [hint]
    norm_num
  · rw [map_rms_to_particles, get_default_rules]
    have h0 : (10 : ℚ) + 1 * 1 * 100 = 110 := by norm_num
    rw [h0]
    have hint : int_py 110 = 110 := by
      rw [int_py, if_neg (by norm_num)]
      norm_num
    rw [hint]
    norm_num

/-- C8: for every feature snapshot handed to the Mapper, exactly one Color,
one Particles, one Motion and one Energy command are emitted, the Energy
command carrying the snapshot's rms; an Onset command (carrying the rms as
intensity) is emitted iff the snapshot's onset flag is true. -/
theorem C8_mapper_commands (rules : MappingRules) (now : ℚ)
    (features : List (String × PyVal ℚ)) (f r : ℚ) (o : Bool)
    (hf : features.lookup "dominant_freq" = some (PyVal.float f))
    (hr : features.lookup "rms" = some (PyVal.float r))
    (ho : features.lookup "onset" = some (PyVal.bool o)) :
    ((process_audio_features rules now features).countP (fun m => m.isColor) = 1) ∧
    ((process_audio_features rules now features).countP (fun m => m.isParticles) = 1) ∧
    ((process_audio_features rules now features).countP (fun m => m.isMotion) = 1) ∧
    ((process_audio_features rules now features).countP (fun m => m.isEnergy) = 1) ∧
    OscMsg.energy r ∈ process_audio_features rules now features ∧
    ((process_audio_features rules now features).countP (fun m => m.isOnset) =
      if o then 1 else 0) ∧
    (o = true → OscMsg.onset r ∈ process_audio_features rules now features) := by
  simp only [process_audio_features, dict_get_float, dict_get_bool, hf, hr, ho]
  cases o <;>
    simp [send_color_hsv, send_color, send_particles, send_motion, send_energy,
      send_onset, OscMsg.isColor, OscMsg.isParticles, OscMsg.isMotion, OscMsg.isEnergy,
      OscMsg.isOnset, List.countP_cons]

/-- C8 (witness): a concrete snapshot with onset set. -/
theorem C8_witness :
    ([("timestamp", PyVal.float (0 : ℚ)), ("spectrum", PyVal.floatList []),
      ("dominant_freq", PyVal.float 100), ("rms", PyVal.float 0.5),
      ("onset", PyVal.bool true),
      ("sample_rate", PyVal.int 44100)].lookup "dominant_freq" =
        some (PyVal.float (100 : ℚ))) ∧
    ([("timestamp", PyVal.float (0 : ℚ)), ("spectrum", PyVal.floatList []),
      ("dominant_freq", PyVal.float 100), ("rms", PyVal.float 0.5),
      ("onset", PyVal.bool true),
      ("sample_rate", PyVal.int 44100)].lookup "rms" = some (PyVal.float (0.5 : ℚ))) ∧
    ([("timestamp", PyVal.float (0 : ℚ)), ("spectrum", PyVal.floatList []),
      ("dominant_freq", PyVal.float 100), ("rms", PyVal.float 0.5),
      ("onset", PyVal.bool true),
      ("sample_rate", PyVal.int 44100)].lookup "onset" = some (PyVal.bool true)) ∧
    (((process_audio_features (get_default_rules "") 0
        [("timestamp", PyVal.float (0 : ℚ)), ("spectrum", PyVal.floatList []),
         ("dominant_freq", PyVal.float 100), ("rms", PyVal.float 0.5),
         ("onset", PyVal.bool true), ("sample_rate", PyVal.int 44100)]).countP
        (fun m => m.isColor) = 1) ∧
     ((process_audio_features (get_default_rules "") 0
        [("timestamp", PyVal.float (0 : ℚ)), ("spectrum", PyVal.floatList []),
         ("dominant_freq", PyVal.float 100), ("rms", PyVal.float 0.5),
         ("onset", PyVal.bool true), ("sample_rate", PyVal.int 44100)]).countP
        (fun m => m.isParticles) = 1) ∧
     ((process_audio_features (get_default_rules "") 0
        [("timestamp", PyVal.float (0 : ℚ)), ("spectrum", PyVal.floatList []),
         ("dominant_freq", PyVal.float 100), ("rms", PyVal.float 0.5),
         ("onset", PyVal.bool true), ("sample_rate", PyVal.int 44100)]).countP
        (fun m => m.isMotion) = 1) ∧
     ((process_audio_features (get_default_rules "") 0
        [("timestamp", PyVal.float (0 : ℚ)), ("spectrum", PyVal.floatList []),
         ("dominant_freq", PyVal.float 100), ("rms", PyVal.float 0.5),
         ("onset", PyVal.bool true), ("sample_rate", PyVal.int 44100)]).countP
        (fun m => m.isEnergy) = 1) ∧
     OscMsg.energy 0.5 ∈ process_audio_features (get_default_rules "") 0
        [("timestamp", PyVal.float (0 : ℚ)), ("spectrum", PyVal.floatList []),
         ("dominant_freq", PyVal.float 100), ("rms", PyVal.float 0.5),
         ("onset", PyVal.bool true), ("sample_rate", PyVal.int 44100)] ∧
     ((process_audio_features (get_default_rules "") 0
        [("timestamp", PyVal.float (0 : ℚ)), ("spectrum", PyVal.floatList []),
         ("dominant_freq", PyVal.float 100), ("rms", PyVal.float 0.5),
         ("onset", PyVal.bool true), ("sample_rate", PyVal.int 44100)]).countP
        (fun m => m.isOnset) = if true then 1 else 0) ∧
     (true = true → OscMsg.onset 0.5 ∈ process_audio_features (get_default_rules "") 0
        [("timestamp", PyVal.float (0 : ℚ)), ("spectrum", PyVal.floatList []),
         ("dominant_freq", PyVal.float 100), ("rms", PyVal.float 0.5),
         ("onset", PyVal.bool true), ("sample_rate", PyVal.int 44100)])) := by
  refine ⟨rfl, rfl, rfl, C8_mapper_commands (get_default_rules "") 0 _ 100 0.5 true
    rfl rfl rfl⟩

/-- C9: loading the mapping configuration never fails the session: a missing
file and malformed JSON both fall back to the hardcoded default document,
whose values are bass hue [0,30] with saturation 0.8, mid hue [60,180] with
saturation 0.6, treble hue [200,280] with saturation 0.9, onset velocity
0.75, and particle size range [5,50]. -/
theorem C9_load_rules_fallback :
    (∀ now, load_mapping_rules now ConfigFile.missing = get_default_rules now) ∧
    (∀ now, load_mapping_rules now ConfigFile.malformed = get_default_rules now) ∧
    (∀ now r, load_mapping_rules now (ConfigFile.parsed r) = r) ∧
    (∀ now,
      (get_default_rules now).rules.color_mapping.frequency_ranges.bass.hue = (0, 30) ∧
      (get_default_rules now).rules.color_mapping.frequency_ranges.bass.saturation = 0.8 ∧
      (get_default_rules now).rules.color_mapping.frequency_ranges.mid.hue = (60, 180) ∧
      (get_default_rules now).rules.color_mapping.frequency_ranges.mid.saturation = 0.6 ∧
      (get_default_rules now).rules.color_mapping.frequency_ranges.treble.hue =
        (200, 280) ∧
      (get_default_rules now).rules.color_mapping.frequency_ranges.treble.saturation =
        0.9 ∧
      (get_default_rules now).rules.motion_mapping.onset_velocity = 0.75 ∧
      (get_default_rules now).rules.particle_mapping.size_range = (5, 50)) :=
  ⟨fun _ => rfl, fun _ => rfl, fun _ _ => rfl,
   fun _ => ⟨rfl, rfl, rfl, rfl, rfl, rfl, rfl, rfl⟩⟩

/-- C10 (counterexample): the claim "for every frame whose half-length is at
most the configured buffer size, extraction returns a snapshot" is false: a
2-sample frame has half-length 1 ≤ 1024, yet extraction raises (the peak
search runs `np.argmax` on an empty slice) and returns nothing. -/
theorem C10_counterexample :
    (List.replicate 2 (0 : ℝ)).length / 2 ≤ defaultProcessor.buffer_size ∧
    extract_features defaultProcessor 0 0 (List.replicate 2 (0 : ℝ)) = none := by
  constructor
  · rw [defaultProcessor_buffer_size, List.length_replicate]
    omega
  · exact extract_features_default_small 0 0 _ (by rw [List.length_replicate])

/-- C10 (amended): the dominant-frequency search indexes the frequency-bin
array precomputed for the configured buffer size (1024), not for the actual
frame.  Extraction returns a snapshot for every frame whose half-length lies
between 2 and 512 (half the buffer size) — in particular for every
configured-length frame — but raises for degenerate frames of half-length at
most 1 (empty peak-search slice) and for every frame of half-length at least
the buffer size: at exactly the buffer size the binary search lands at index
1024 and the peak-search slice is empty, and beyond it (frames longer than
twice the buffer size) the peak-bin index exceeds the precomputed array's
bounds, so extraction raises instead of returning a snapshot. -/
theorem C10_freq_bins_bounds :
    (∀ (prev now : ℝ) (frame : List ℝ), 2 ≤ frame.length / 2 → frame.length / 2 ≤ 512 →
        (extract_features defaultProcessor prev now frame).isSome = true) ∧
    (∀ (prev now : ℝ) (frame : List ℝ), frame.length / 2 ≤ 1 →
        extract_features defaultProcessor prev now frame = none) ∧
    (∀ (prev now : ℝ) (frame : List ℝ), 1024 ≤ frame.length / 2 →
        extract_features defaultProcessor prev now frame = none) := by
  refine ⟨?_, extract_features_default_small, extract_features_default_big⟩
  intro prev now frame h2 h512
  obtain ⟨p, _, _, heq, _⟩ := extract_features_default_spec prev now frame h2 h512
  rw [heq]
  rfl

/-- C10 (witness): the three regimes at concrete frames of 4, 3 and 4096
samples. -/
theorem C10_witness :
    (2 ≤ (List.replicate 4 (0 : ℝ)).length / 2 ∧
      (List.replicate 4 (0 : ℝ)).length / 2 ≤ 512 ∧
      (extract_features defaultProcessor 0 0 (List.replicate 4 (0 : ℝ))).isSome = true) ∧
    ((List.replicate 3 (0 : ℝ)).length / 2 ≤ 1 ∧
      extract_features defaultProcessor 0 0 (List.replicate 3 (0 : ℝ)) = none) ∧
    (1024 ≤ (List.replicate 4096 (0 : ℝ)).length / 2 ∧
      extract_features defaultProcessor 0 0 (List.replicate 4096 (0 : ℝ)) = none) := by
  have ha : 2 ≤ (List.replicate 4 (0 : ℝ)).length / 2 := by
    rw [List.length_replicate]
  have hb : (List.replicate 4 (0 : ℝ)).length / 2 ≤ 512 := by
    rw [List.length_replicate]
    omega
  have hc : (List.replicate 3 (0 : ℝ)).length / 2 ≤ 1 := by
    rw [List.length_replicate]
  have hd : 1024 ≤ (List.replicate 4096 (0 : ℝ)).length / 2 := by
    rw [List.length_replicate]
    omega
  exact ⟨⟨ha, hb, C10_freq_bins_bounds.1 0 0 _ ha hb⟩,
    ⟨hc, C10_freq_bins_bounds.2.1 0 0 _ hc⟩,
    ⟨hd, C10_freq_bins_bounds.2.2 0 0 _ hd⟩⟩

end Tolqyn
